import Mathlib

/-!
# odo `debug port-forward`: a shallow embedding of `pkg/odo/cli/debug/portforward.go`

The three methods of `PortForwardOptions` (`Complete`, `Validate`, `Run`) are
translated statement by statement.  Every call that leaves the file (the
standard library, cobra, the other odo packages) is answered by an explicit
environment record, and every such call is written to an event list in program
order, so that "is called", "is never called" and "is called before" are
statements about that list.  The goroutine started by `Run` is embedded as a
small-step machine over the buffered channel `signals`.
-/

namespace Odo

/-! ## Data model -/

/-- A Go `error` value that is not nil, identified by its message. -/
structure GoError where
  msg : String
  deriving DecidableEq, Repr

/-- A channel made by `make(chan struct{}, cap)`. -/
structure Chan where
  cap : Nat
  deriving DecidableEq, Repr

/-- A `net.Listener` returned by `net.Listen`, identified by its address. -/
structure Listener where
  addr : String
  deriving DecidableEq, Repr

/-- The `*pflag.Flag` found by `cmd.Flags().Lookup`; only `Changed` is read. -/
structure Flag where
  Changed : Bool
  deriving DecidableEq, Repr

/-- The part of `envinfo.EnvSpecificInfo` that `Complete` reads. -/
structure EnvSpecificInfo where
  debugPort : Int
  name : String
  nspace : String
  deriving DecidableEq, Repr

/-- The part of `config.LocalConfigInfo` that `Complete` reads. -/
structure LocalConfigInfo where
  debugPort : Int
  name : String
  application : String
  project : String
  deriving DecidableEq, Repr

/-- The part of `genericclioptions.Context` that `Complete` reads. -/
structure Context where
  EnvSpecificInfo : EnvSpecificInfo
  LocalConfigInfo : LocalConfigInfo
  Client : String
  KClient : String
  deriving DecidableEq, Repr

/-- The value built by `debug.NewDefaultPortForwarder`: it stores its arguments. -/
structure DefaultPortForwarder where
  componentName : String
  appName : String
  projectName : String
  client : String
  kClient : String
  deriving DecidableEq, Repr

/-- The struct `PortForwardOptions`; a nil pointer or nil channel is `none`. -/
structure PortForwardOptions where
  componentName : String
  applicationName : String
  Namespace : String
  PortPair : String
  localPort : Int
  contextDir : String
  PortForwarder : Option DefaultPortForwarder
  StopChannel : Option Chan
  ReadyChannel : Option Chan
  Context : Option Context
  DevfilePath : String
  isExperimental : Bool
  deriving DecidableEq, Repr

/-- The function `NewPortForwardOptions`: the zero value of the struct. -/
def NewPortForwardOptions : PortForwardOptions :=
  { componentName := "", applicationName := "", Namespace := "", PortPair := "",
    localPort := 0, contextDir := "", PortForwarder := none, StopChannel := none,
    ReadyChannel := none, Context := none, DevfilePath := "", isExperimental := false }

/-- The calls leaving the file, in the order the program makes them.  The call of
`os.RemoveAll` is deferred and its result dropped, so the event keeps that result. -/
inductive Event where
  | isExperimentalModeEnabled
  | checkPathExists (path : String)
  | newDevfileContext
  | newContext
  | netListen (network address : String)
  | flagsLookup (name : String)
  | logErrorf (port : Int) (cause : GoError)
  | httpGetFreePort
  | logInfof (port : Int)
  | listenerClose (l : Listener)
  | newDefaultPortForwarder (pf : DefaultPortForwarder)
  | makeChan (cap : Nat)
  | signalNotify
  | goBridge (stop : Option Chan)
  | createDebugInfoFile (pf : Option DefaultPortForwarder) (portPair : String)
  | forwardPorts (portPair : String) (stop ready : Option Chan) (isExperimental : Bool)
  | osRemoveAll (path : String) (err : Option GoError)
  | signalStop
  deriving DecidableEq, Repr

/-- The answers of the outside world to the calls `Complete` makes. -/
structure CompleteEnv where
  /-- The result of `experimental.IsExperimentalModeEnabled()`. -/
  isExperimentalModeEnabled : Bool
  /-- The result of `util.CheckPathExists(path)`. -/
  checkPathExists : String → Bool
  /-- The result of `genericclioptions.NewDevfileContext(cmd)`. -/
  newDevfileContext : Context
  /-- The result of `genericclioptions.NewContext(cmd)`. -/
  newContext : Context
  /-- The result of `net.Listen(network, address)`. -/
  netListen : String → String → Except GoError Listener
  /-- The result of `listener.Close()`; `none` is a nil error. -/
  listenerClose : Listener → Option GoError
  /-- The result of `cmd.Flags().Lookup(name)`; `none` is a nil flag. -/
  flagsLookup : String → Option Flag
  /-- The two results of `util.HttpGetFreePort()`. -/
  httpGetFreePort : Int × Option GoError

/-! ## Formatting -/

/-- The function `strconv.Itoa`, which is also what the verb `%d` prints for an `int`. -/
def Itoa (i : Int) : String :=
  match i with
  | Int.ofNat n => Nat.repr n
  | Int.negSucc n => "-" ++ Nat.repr (n + 1)

/-- The call `fmt.Sprintf("%d:%d", a, b)`. -/
def Sprintf_d_colon_d (a b : Int) : String :=
  Itoa a ++ ":" ++ Itoa b

/-- The builtin `len` on a Go string: its number of bytes. -/
def len (s : String) : Nat := s.utf8ByteSize

/-! ## `Complete` -/

/-- What `Complete` leaves behind: the receiver, the calls made, the returned error. -/
structure CompleteResult where
  o : PortForwardOptions
  events : List Event
  err : Option GoError

/-- Lines 76-99 of `Complete`: the context is loaded and the target identity and the
remote debug port are read from it.  Returns the receiver, the calls and `remotePort`. -/
def Complete.resolve (env : CompleteEnv) (o : PortForwardOptions) :
    PortForwardOptions × List Event × Int :=
  let o := { o with isExperimental := env.isExperimentalModeEnabled }
  -- `&&` is short-circuit: the path is checked only in experimental mode
  if o.isExperimental && env.checkPathExists o.DevfilePath then
    let o := { o with Context := some env.newDevfileContext }
    let envInfo := env.newDevfileContext.EnvSpecificInfo
    let remotePort := envInfo.debugPort
    let o := { o with componentName := envInfo.name }
    let o := { o with Namespace := envInfo.nspace }
    (o, [Event.isExperimentalModeEnabled, Event.checkPathExists o.DevfilePath,
         Event.newDevfileContext], remotePort)
  else
    let o := { o with Context := some env.newContext }
    let cfg := env.newContext.LocalConfigInfo
    let remotePort := cfg.debugPort
    let o := { o with componentName := cfg.name }
    let o := { o with applicationName := cfg.application }
    let o := { o with Namespace := cfg.project }
    (o, (if o.isExperimental then
           [Event.isExperimentalModeEnabled, Event.checkPathExists o.DevfilePath]
         else [Event.isExperimentalModeEnabled]) ++ [Event.newContext], remotePort)

/-- Lines 124-131 of `Complete`: the pair is rendered, the forwarder and the two
channels are made, and the (nil) error is returned. -/
def Complete.finish (o : PortForwardOptions) (remotePort : Int) (evs : List Event) :
    CompleteResult :=
  let o := { o with PortPair := Sprintf_d_colon_d o.localPort remotePort }
  let client := match o.Context with
    | some c => c.Client
    | none => ""
  let kClient := match o.Context with
    | some c => c.KClient
    | none => ""
  let pf : DefaultPortForwarder :=
    { componentName := o.componentName, appName := o.applicationName,
      projectName := o.Namespace, client := client, kClient := kClient }
  let o := { o with PortForwarder := some pf }
  let o := { o with StopChannel := some ⟨1⟩ }
  let o := { o with ReadyChannel := some ⟨0⟩ }
  { o := o, events := evs ++ [Event.newDefaultPortForwarder pf, Event.makeChan 1,
      Event.makeChan 0], err := none }

/-- The condition `flag != nil && flag.Changed`. -/
def flagSet (flag : Option Flag) : Bool :=
  match flag with
  | some f => f.Changed
  | none => false

/-- The method `(*PortForwardOptions).Complete`. -/
def Complete (env : CompleteEnv) (o : PortForwardOptions) : CompleteResult :=
  match Complete.resolve env o with
  | (o, evs, remotePort) =>
    -- try to listen on the given local port and check if the port is free or not
    let addressLook := "localhost:" ++ Itoa o.localPort
    let evs := evs ++ [Event.netListen "tcp" addressLook]
    match env.netListen "tcp" addressLook with
    | Except.error err =>
      -- if the local-port flag is set by the user, return the error and stop execution
      let flag := env.flagsLookup "local-port"
      let evs := evs ++ [Event.flagsLookup "local-port"]
      if flagSet flag then
        { o := o, events := evs, err := some err }
      else
        -- else display a error message and auto select a new free port
        let evs := evs ++ [Event.logErrorf o.localPort err, Event.httpGetFreePort]
        let o := { o with localPort := env.httpGetFreePort.1 }
        match env.httpGetFreePort.2 with
        | some err => { o := o, events := evs, err := some err }
        | none =>
          let evs := evs ++ [Event.logInfof o.localPort]
          Complete.finish o remotePort evs
    | Except.ok listener =>
      let evs := evs ++ [Event.listenerClose listener]
      match env.listenerClose listener with
      | some err => { o := o, events := evs, err := some err }
      | none => Complete.finish o remotePort evs

/-! ## `Validate` -/

/-- The method `PortForwardOptions.Validate`.  The receiver is a value, so the
method works on a copy; the first component is the caller's struct after the
call, the second the returned error. -/
def Validate (o : PortForwardOptions) : PortForwardOptions × Option GoError :=
  if len o.PortPair < 1 then
    (o, some ⟨"ports cannot be empty"⟩)
  else
    (o, none)

/-! ## `Run` -/

/-- The files that exist, by path. -/
abbrev FS := List String

/-- The answers of the outside world to the calls `Run` makes.  The calls into
`pkg/debug` and the tunnel may change the files, so they take and return them. -/
structure RunEnv where
  /-- The result of `debug.GetDebugInfoFilePath(componentName, appName, projectName)`. -/
  getDebugInfoFilePath : String → String → String → String
  /-- The effect and result of `debug.CreateDebugInfoFile(f, portPair)`. -/
  createDebugInfoFile : Option DefaultPortForwarder → String → FS → FS × Option GoError
  /-- The effect and result of `f.ForwardPorts(portPair, stop, ready, isExperimental)`,
  which returns when the tunnel has ended. -/
  forwardPorts : Option DefaultPortForwarder → String → Option Chan → Option Chan → Bool →
    FS → FS × Option GoError
  /-- A failure of `os.RemoveAll(path)`: the files left behind and the error. -/
  osRemoveAllFails : String → FS → Option (FS × GoError)

/-- The names of a path, read from the left: the pieces between slashes, where an
empty piece (a doubled or trailing slash) and the name `.` stand for no step. -/
def pathNamesFrom : List Char → List Char → List (List Char)
  | [], cur => if cur.isEmpty || cur == ['.'] then [] else [cur.reverse]
  | c :: cs, cur =>
    if c = '/' then
      if cur.isEmpty || cur == ['.'] then pathNamesFrom cs []
      else cur.reverse :: pathNamesFrom cs []
    else pathNamesFrom cs (c :: cur)

/-- The names of a path. -/
def pathNames (p : String) : List (List Char) := pathNamesFrom p.data []

/-- Whether a path starts at the root. -/
def isRooted (p : String) : Bool := p.data.head? == some '/'

/-- The test `endsWithDot` of package `os`: the path is `.` or ends in `/.`. -/
def endsWithDot (path : String) : Bool :=
  path == "." ||
    (match path.data.reverse with
     | '.' :: c :: _ => c == '/'
     | _ => false)

/-- Whether the entry `f` is what `path` names, or lies below it.  An entry written
exactly as `path` is the same file; otherwise the two are compared name by name,
so that doubled and trailing slashes make no difference.  The empty path names
nothing but itself, and `..` is not resolved. -/
def atOrBelow (path f : String) : Bool :=
  f == path ||
    (path != "" && isRooted f == isRooted path && (pathNames path).isPrefixOf (pathNames f))

/-- The function `os.RemoveAll`.  On the empty path it returns nil at once and on a
path that ends with a dot it returns an error at once, in both cases without
touching a file (no file has the empty name).  Otherwise it removes what `path`
names and everything below it and returns nil, also when `path` does not exist,
unless the removal fails. -/
def osRemoveAll (env : RunEnv) (path : String) (fs : FS) : FS × Option GoError :=
  if path != "" && endsWithDot path then
    (fs, some ⟨"RemoveAll " ++ path ++ ": invalid argument"⟩)
  else
    match (if path = "" then none else env.osRemoveAllFails path fs) with
    | some (fs, err) => (fs, some err)
    | none => (fs.filter (fun f => !(atOrBelow path f)), none)

/-- A call recorded by a `defer` statement, its arguments already evaluated. -/
inductive Deferred where
  | signalStop
  | osRemoveAll (path : String)
  deriving DecidableEq, Repr

/-- What `Run` leaves behind: the calls made, the files, the returned error. -/
structure RunResult where
  events : List Event
  fs : FS
  err : Option GoError

/-- The deferred calls run when the function returns, the last deferred first; their
results are dropped and the value being returned is kept. -/
def runDeferred (env : RunEnv) : List Deferred → RunResult → RunResult
  | [], r => r
  | Deferred.signalStop :: ds, r =>
    runDeferred env ds { r with events := r.events ++ [Event.signalStop] }
  | Deferred.osRemoveAll path :: ds, r =>
    runDeferred env ds
      { r with events := r.events ++ [Event.osRemoveAll path (osRemoveAll env path r.fs).2],
               fs := (osRemoveAll env path r.fs).1 }

/-- The method `PortForwardOptions.Run`.  The goroutine it starts is recorded as
`Event.goBridge` and runs on its own (see `Bridge`). -/
def Run (env : RunEnv) (o : PortForwardOptions) (fs : FS) : RunResult :=
  let evs := [Event.makeChan 1, Event.signalNotify]
  let defers : List Deferred := []
  let defers := Deferred.signalStop :: defers
  let defers := Deferred.osRemoveAll
    (env.getDebugInfoFilePath o.componentName o.applicationName o.Namespace) :: defers
  let evs := evs ++ [Event.goBridge o.StopChannel]
  let evs := evs ++ [Event.createDebugInfoFile o.PortForwarder o.PortPair]
  match env.createDebugInfoFile o.PortForwarder o.PortPair fs with
  | (fs, some err) => runDeferred env defers { events := evs, fs := fs, err := some err }
  | (fs, none) =>
    let evs := evs ++
      [Event.forwardPorts o.PortPair o.StopChannel o.ReadyChannel o.isExperimental]
    match env.forwardPorts o.PortForwarder o.PortPair o.StopChannel o.ReadyChannel
        o.isExperimental fs with
    | (fs, ret) => runDeferred env defers { events := evs, fs := fs, err := ret }

/-! ## The signal bridge started by `Run` -/

/-- The signals of `os/signal` that matter here, and one that is not registered. -/
inductive Signal where
  | SIGHUP
  | SIGINT
  | SIGQUIT
  | SIGTERM
  | SIGUSR1
  deriving DecidableEq, Repr

/-- The constant `os.Interrupt`. -/
def osInterrupt : Signal := Signal.SIGINT

/-- The signals passed to `signal.Notify` by `Run`. -/
def notifySet : List Signal :=
  [osInterrupt, Signal.SIGHUP, Signal.SIGINT, Signal.SIGTERM, Signal.SIGQUIT]

/-- Where the goroutine `go func() { <-signals; ... }()` stands. -/
inductive BridgePc where
  | atReceive
  | returned
  deriving DecidableEq, Repr

/-- The state shared by the runtime, the goroutine and `Run`. -/
structure BridgeState where
  /-- The content of the channel `signals`, made with capacity 1. -/
  signals : List Signal
  /-- Whether `signals` is registered: after `signal.Notify`, before `signal.Stop`. -/
  registered : Bool
  pc : BridgePc
  /-- The channel `o.StopChannel`: `none` is nil, `some true` is closed. -/
  stopClosed : Option Bool
  /-- The signal taken by `<-signals`. -/
  received : Option Signal
  /-- How many times `close(o.StopChannel)` has run. -/
  closes : Nat
  /-- A `close` of a closed channel has panicked. -/
  panicked : Bool
  deriving DecidableEq, Repr

/-- What can happen while `Run` is blocked in the tunnel. -/
inductive Action where
  /-- The process is sent a signal. -/
  | deliver (sig : Signal)
  /-- The goroutine is scheduled. -/
  | bridge
  /-- The method `Run` returns and its deferred `signal.Stop(signals)` runs. -/
  | runReturns
  deriving DecidableEq, Repr

/-- The state after `signal.Notify` and the `go` statement. -/
def Bridge.init (stop : Option Chan) : BridgeState :=
  { signals := [], registered := true, pc := BridgePc.atReceive,
    stopClosed := stop.map (fun _ => false), received := none, closes := 0,
    panicked := false }

/-- One action.  The runtime sends to a registered channel without blocking and
drops the signal when the channel is full; the goroutine blocks while `signals`
is empty and otherwise runs to its end. -/
def Bridge.step (s : BridgeState) : Action → BridgeState
  | Action.deliver sig =>
    if s.registered && decide (sig ∈ notifySet) && decide (s.signals.length < 1) then
      { s with signals := s.signals ++ [sig] }
    else s
  | Action.runReturns => { s with registered := false }
  | Action.bridge =>
    match s.pc with
    | BridgePc.returned => s
    | BridgePc.atReceive =>
      match s.signals with
      | [] => s
      | sig :: rest =>
        let s := { s with signals := rest, received := some sig, pc := BridgePc.returned }
        match s.stopClosed with
        | none => s
        | some false => { s with stopClosed := some true, closes := s.closes + 1 }
        | some true => { s with panicked := true }

/-- A run of actions, from the left. -/
def Bridge.exec (s : BridgeState) (as : List Action) : BridgeState :=
  as.foldl Bridge.step s

/-! ## The command runner's sequence -/

/-- The sequence `Complete`, then `Validate`: the second runs on the completed
options, and only when the first returned nil.  Gives the options and the error
the sequence ends with. -/
def CompleteThenValidate (env : CompleteEnv) (o : PortForwardOptions) :
    PortForwardOptions × Option GoError :=
  match (Complete env o).err with
  | some err => ((Complete env o).o, some err)
  | none => Validate (Complete env o).o

/-! ## Concrete inputs -/

/-- A context for component `c` of application `a` in project `p`. -/
def ctxOf (remote : Int) : Context :=
  { EnvSpecificInfo := ⟨remote, "c", "p"⟩, LocalConfigInfo := ⟨remote, "c", "a", "p"⟩,
    Client := "client", KClient := "kclient" }

/-- The error of a bind on a port that is in use. -/
def errInUse : GoError := ⟨"bind: address already in use"⟩

/-- An error of the free-port lookup. -/
def errNoPort : GoError := ⟨"listen tcp 127.0.0.1:0: bind: no free port"⟩

/-- An error of `listener.Close`. -/
def errClose : GoError := ⟨"close tcp 127.0.0.1:5858: use of closed network connection"⟩

/-- An environment outside experimental mode: whether the requested port is busy,
the `local-port` flag, the answer of the free-port lookup, the result of `Close`. -/
def envOf (remote : Int) (busy : Bool) (flag : Option Flag) (free : Int × Option GoError)
    (closeErr : Option GoError) : CompleteEnv :=
  { isExperimentalModeEnabled := false
    checkPathExists := fun _ => false
    newDevfileContext := ctxOf remote
    newContext := ctxOf remote
    netListen := fun _ a => if busy then Except.error errInUse else Except.ok ⟨a⟩
    listenerClose := fun _ => closeErr
    flagsLookup := fun n => if n = "local-port" then flag else none
    httpGetFreePort := free }

/-- The options after flag parsing with `--local-port p` (or the default `p`). -/
def optsOf (p : Int) : PortForwardOptions :=
  { NewPortForwardOptions with localPort := p }

/-! ## Reading the event list -/

/-- Whether an event is a call of `os.RemoveAll`. -/
def Event.isOsRemoveAll : Event → Bool
  | Event.osRemoveAll _ _ => true
  | _ => false

/-- Whether an event is a call of `ForwardPorts`. -/
def Event.isForwardPorts : Event → Bool
  | Event.forwardPorts _ _ _ _ => true
  | _ => false

/-- The path used by the concrete environments, built the way `pkg/debug` names
the file: project, application and component joined by dashes under `/tmp`. -/
def debugInfoPath (componentName appName projectName : String) : String :=
  "/tmp/" ++ projectName ++ "-" ++ appName ++ "-" ++ componentName ++ "-odo-debug.json"

/-- An error of the metadata write. -/
def errWrite : GoError := ⟨"open /tmp/p-a-c-odo-debug.json: permission denied"⟩

/-- An error of the tunnel. -/
def errTunnel : GoError := ⟨"error upgrading connection: pod not found"⟩

/-- An environment for `Run`: the result of the metadata write (which creates the
file when it succeeds), of the tunnel, and of the removal. -/
def runEnvOf (createErr tunnelErr rmErr : Option GoError) : RunEnv :=
  { getDebugInfoFilePath := debugInfoPath
    createDebugInfoFile := fun pf _ fs =>
      match createErr, pf with
      | some e, _ => (fs, some e)
      | none, some f => (debugInfoPath f.componentName f.appName f.projectName :: fs, none)
      | none, none => (fs, none)
    forwardPorts := fun _ _ _ _ _ fs => (fs, tunnelErr)
    osRemoveAllFails := fun _ fs => rmErr.map (fun e => (fs, e)) }

/-- The options left by a successful `Complete` with port 5858 free. -/
def completedOpts : PortForwardOptions :=
  (Complete (envOf 5858 false none (52341, none) none) (optsOf 5858)).o

/-! ## Schedules of the signal bridge -/

/-- The termination signals named by the specification: hang-up, interrupt,
terminate and quit. -/
def Signal.isTermination : Signal → Bool
  | Signal.SIGHUP => true
  | Signal.SIGINT => true
  | Signal.SIGTERM => true
  | Signal.SIGQUIT => true
  | Signal.SIGUSR1 => false

/-- An action before the first termination signal: a signal that is not one of
the four, or a turn for the goroutine.  The return of `Run` is not one, as it ends
the registration. -/
def Action.quiet : Action → Bool
  | Action.deliver sig => !sig.isTermination
  | Action.bridge => true
  | Action.runReturns => false

/-! # Theorems -/

/-! ## Strings -/

theorem len_lt_one_iff (s : String) : len s < 1 ↔ s = "" := by
  obtain ⟨cs⟩ := s
  cases cs with
  | nil => simp [len, String.utf8ByteSize, String.utf8ByteSize.go]
  | cons c cs =>
    have hc := Char.utf8Size_pos c
    have hne : (String.mk (c :: cs)) ≠ "" := by
      intro h
      have := congrArg String.data h
      simp at this
    simp only [len, String.utf8ByteSize, String.utf8ByteSize.go, hne, iff_false]
    omega

theorem digitChar_ne_colon : ∀ m, m < 10 → Nat.digitChar m ≠ ':' := by decide

theorem toDigitsCore_mem (f : Nat) : ∀ (n : Nat) (ds : List Char) (c : Char),
    c ∈ Nat.toDigitsCore 10 f n ds → c ∈ ds ∨ ∃ m, m < 10 ∧ c = Nat.digitChar m := by
  induction f with
  | zero => intro n ds c h; simp [Nat.toDigitsCore] at h; exact Or.inl h
  | succ f ih =>
    intro n ds c h
    simp only [Nat.toDigitsCore] at h
    split at h
    · rcases List.mem_cons.1 h with h | h
      · exact Or.inr ⟨n % 10, Nat.mod_lt _ (by decide), h⟩
      · exact Or.inl h
    · rcases ih _ _ _ h with h | h
      · rcases List.mem_cons.1 h with h | h
        · exact Or.inr ⟨n % 10, Nat.mod_lt _ (by decide), h⟩
        · exact Or.inl h
      · exact Or.inr h

theorem toDigitsCore_length_ge (f : Nat) : ∀ (n : Nat) (ds : List Char),
    ds.length + 1 ≤ (Nat.toDigitsCore 10 (f + 1) n ds).length := by
  induction f with
  | zero => intro n ds; simp [Nat.toDigitsCore]
  | succ f ih =>
    intro n ds
    rw [Nat.toDigitsCore]
    split
    · simp
    · have := ih (n / 10) (Nat.digitChar (n % 10) :: ds)
      simp only [List.length_cons] at this
      omega

theorem repr_colon_not_mem (n : Nat) : ':' ∉ (Nat.repr n).data := by
  intro h
  simp only [Nat.repr, List.asString, Nat.toDigits] at h
  rcases toDigitsCore_mem _ _ _ _ h with h | ⟨m, hm, h⟩
  · simp at h
  · exact digitChar_ne_colon m hm h.symm

theorem repr_length_pos (n : Nat) : 1 ≤ (Nat.repr n).length := by
  simp only [Nat.repr, List.asString, Nat.toDigits, String.length]
  have := toDigitsCore_length_ge n n []
  simpa using this

theorem Itoa_colon_not_mem (i : Int) : ':' ∉ (Itoa i).data := by
  cases i with
  | ofNat n => exact repr_colon_not_mem n
  | negSucc n =>
    simp only [Itoa, String.data_append, List.mem_append, not_or]
    exact ⟨by decide, repr_colon_not_mem _⟩

theorem Itoa_length_pos (i : Int) : 1 ≤ (Itoa i).length := by
  cases i with
  | ofNat n => exact repr_length_pos n
  | negSucc n =>
    simp only [Itoa, String.length_append]
    have := repr_length_pos (n + 1)
    omega

theorem Sprintf_length (a b : Int) : 3 ≤ (Sprintf_d_colon_d a b).length := by
  have ha := Itoa_length_pos a
  have hb := Itoa_length_pos b
  simp only [Sprintf_d_colon_d, String.length_append]
  have : (":" : String).length = 1 := rfl
  omega

theorem Sprintf_count_colon (a b : Int) : (Sprintf_d_colon_d a b).data.count ':' = 1 := by
  have ha := Itoa_colon_not_mem a
  have hb := Itoa_colon_not_mem b
  simp only [Sprintf_d_colon_d, String.data_append, List.count_append]
  rw [List.count_eq_zero_of_not_mem ha, List.count_eq_zero_of_not_mem hb]
  rfl

theorem Sprintf_ne_empty (a b : Int) : Sprintf_d_colon_d a b ≠ "" := by
  intro h
  have := Sprintf_length a b
  rw [h] at this
  simp at this

/-! ## `Complete`, branch by branch -/

theorem Complete.resolve_localPort (env : CompleteEnv) (o : PortForwardOptions) :
    (Complete.resolve env o).1.localPort = o.localPort := by
  by_cases h : (env.isExperimentalModeEnabled && env.checkPathExists o.DevfilePath) = true <;>
    simp [Complete.resolve, h]

theorem Complete.resolve_PortPair (env : CompleteEnv) (o : PortForwardOptions) :
    (Complete.resolve env o).1.PortPair = o.PortPair := by
  by_cases h : (env.isExperimentalModeEnabled && env.checkPathExists o.DevfilePath) = true <;>
    simp [Complete.resolve, h]

theorem Complete.resolve_PortForwarder (env : CompleteEnv) (o : PortForwardOptions) :
    (Complete.resolve env o).1.PortForwarder = o.PortForwarder := by
  by_cases h : (env.isExperimentalModeEnabled && env.checkPathExists o.DevfilePath) = true <;>
    simp [Complete.resolve, h]

theorem Complete.resolve_remotePort (env : CompleteEnv) (o : PortForwardOptions) :
    (Complete.resolve env o).2.2 =
      if env.isExperimentalModeEnabled && env.checkPathExists o.DevfilePath then
        env.newDevfileContext.EnvSpecificInfo.debugPort
      else env.newContext.LocalConfigInfo.debugPort := by
  by_cases h : (env.isExperimentalModeEnabled && env.checkPathExists o.DevfilePath) = true <;>
    simp [Complete.resolve, h]

theorem Complete.resolve_events (env : CompleteEnv) (o : PortForwardOptions) (ev : Event)
    (h : ev ∈ (Complete.resolve env o).2.1) :
    ev = Event.isExperimentalModeEnabled ∨ ev = Event.checkPathExists o.DevfilePath ∨
      ev = Event.newDevfileContext ∨ ev = Event.newContext := by
  by_cases hc : (env.isExperimentalModeEnabled && env.checkPathExists o.DevfilePath) = true
  · simp [Complete.resolve, hc] at h
    tauto
  · simp only [Complete.resolve, hc] at h
    by_cases he : env.isExperimentalModeEnabled = true <;> simp [he] at h <;> tauto

theorem Complete_bind_fails_pinned (env : CompleteEnv) (o : PortForwardOptions) (e : GoError)
    (hbind : env.netListen "tcp" ("localhost:" ++ Itoa o.localPort) = Except.error e)
    (hflag : flagSet (env.flagsLookup "local-port") = true) :
    Complete env o =
      { o := (Complete.resolve env o).1,
        events := (Complete.resolve env o).2.1 ++
          [Event.netListen "tcp" ("localhost:" ++ Itoa o.localPort),
           Event.flagsLookup "local-port"],
        err := some e } := by
  have h1 := Complete.resolve_localPort env o
  unfold Complete
  generalize Complete.resolve env o = r at h1
  obtain ⟨o1, evs, rp⟩ := r
  simp only at h1
  simp [h1, hbind, hflag]

theorem Complete_bind_fails_lookup_fails (env : CompleteEnv) (o : PortForwardOptions)
    (e e2 : GoError)
    (hbind : env.netListen "tcp" ("localhost:" ++ Itoa o.localPort) = Except.error e)
    (hflag : flagSet (env.flagsLookup "local-port") = false)
    (hfree : env.httpGetFreePort.2 = some e2) :
    Complete env o =
      { o := { (Complete.resolve env o).1 with localPort := env.httpGetFreePort.1 },
        events := (Complete.resolve env o).2.1 ++
          [Event.netListen "tcp" ("localhost:" ++ Itoa o.localPort),
           Event.flagsLookup "local-port", Event.logErrorf o.localPort e,
           Event.httpGetFreePort],
        err := some e2 } := by
  have h1 := Complete.resolve_localPort env o
  unfold Complete
  generalize Complete.resolve env o = r at h1
  obtain ⟨o1, evs, rp⟩ := r
  simp only at h1
  simp [h1, hbind, hflag, hfree]

theorem Complete_bind_fails_lookup_ok (env : CompleteEnv) (o : PortForwardOptions)
    (e : GoError)
    (hbind : env.netListen "tcp" ("localhost:" ++ Itoa o.localPort) = Except.error e)
    (hflag : flagSet (env.flagsLookup "local-port") = false)
    (hfree : env.httpGetFreePort.2 = none) :
    Complete env o =
      Complete.finish { (Complete.resolve env o).1 with localPort := env.httpGetFreePort.1 }
        (Complete.resolve env o).2.2
        ((Complete.resolve env o).2.1 ++
          [Event.netListen "tcp" ("localhost:" ++ Itoa o.localPort),
           Event.flagsLookup "local-port", Event.logErrorf o.localPort e,
           Event.httpGetFreePort, Event.logInfof env.httpGetFreePort.1]) := by
  have h1 := Complete.resolve_localPort env o
  unfold Complete
  generalize Complete.resolve env o = r at h1
  obtain ⟨o1, evs, rp⟩ := r
  simp only at h1
  simp [h1, hbind, hflag, hfree]

theorem Complete_bind_ok_close_fails (env : CompleteEnv) (o : PortForwardOptions)
    (l : Listener) (e : GoError)
    (hbind : env.netListen "tcp" ("localhost:" ++ Itoa o.localPort) = Except.ok l)
    (hclose : env.listenerClose l = some e) :
    Complete env o =
      { o := (Complete.resolve env o).1,
        events := (Complete.resolve env o).2.1 ++
          [Event.netListen "tcp" ("localhost:" ++ Itoa o.localPort), Event.listenerClose l],
        err := some e } := by
  have h1 := Complete.resolve_localPort env o
  unfold Complete
  generalize Complete.resolve env o = r at h1
  obtain ⟨o1, evs, rp⟩ := r
  simp only at h1
  simp [h1, hbind, hclose]

theorem Complete_bind_ok_close_ok (env : CompleteEnv) (o : PortForwardOptions)
    (l : Listener)
    (hbind : env.netListen "tcp" ("localhost:" ++ Itoa o.localPort) = Except.ok l)
    (hclose : env.listenerClose l = none) :
    Complete env o =
      Complete.finish (Complete.resolve env o).1 (Complete.resolve env o).2.2
        ((Complete.resolve env o).2.1 ++
          [Event.netListen "tcp" ("localhost:" ++ Itoa o.localPort),
           Event.listenerClose l]) := by
  have h1 := Complete.resolve_localPort env o
  unfold Complete
  generalize Complete.resolve env o = r at h1
  obtain ⟨o1, evs, rp⟩ := r
  simp only at h1
  simp [h1, hbind, hclose]

theorem Complete.finish_events (o : PortForwardOptions) (rp : Int) (evs : List Event) :
    ∃ pf, (Complete.finish o rp evs).events =
      evs ++ [Event.newDefaultPortForwarder pf, Event.makeChan 1, Event.makeChan 0] :=
  ⟨_, rfl⟩

/-- Whenever `Complete` returns nil it has gone through lines 124-131. -/
theorem Complete_ok_PortPair (env : CompleteEnv) (o : PortForwardOptions)
    (h : (Complete env o).err = none) :
    (Complete env o).o.PortPair =
      Sprintf_d_colon_d (Complete env o).o.localPort (Complete.resolve env o).2.2 := by
  cases hbind : env.netListen "tcp" ("localhost:" ++ Itoa o.localPort) with
  | error e =>
    cases hflag : flagSet (env.flagsLookup "local-port") with
    | true => rw [Complete_bind_fails_pinned env o e hbind hflag] at h; simp at h
    | false =>
      cases hfree : env.httpGetFreePort.2 with
      | some e2 =>
        rw [Complete_bind_fails_lookup_fails env o e e2 hbind hflag hfree] at h; simp at h
      | none => rw [Complete_bind_fails_lookup_ok env o e hbind hflag hfree]; rfl
  | ok l =>
    cases hclose : env.listenerClose l with
    | some e => rw [Complete_bind_ok_close_fails env o l e hbind hclose] at h; simp at h
    | none => rw [Complete_bind_ok_close_ok env o l hbind hclose]; rfl

/-! ## Claims about `Complete` and `Validate` -/

/-- C1 (pinned-port fidelity).  When the bind on `localhost:p` fails and the
`local-port` flag is present and changed, `Complete` returns exactly the bind
error, the free-port lookup is not among its calls, `localPort` is still `p`, and
neither `PortPair` nor the forwarder has been built. -/
theorem complete_pinned_port_fidelity (env : CompleteEnv) (o : PortForwardOptions)
    (e : GoError)
    (hbind : env.netListen "tcp" ("localhost:" ++ Itoa o.localPort) = Except.error e)
    (hflag : flagSet (env.flagsLookup "local-port") = true) :
    (Complete env o).err = some e ∧
    Event.httpGetFreePort ∉ (Complete env o).events ∧
    (Complete env o).o.localPort = o.localPort ∧
    (Complete env o).o.PortPair = o.PortPair ∧
    (Complete env o).o.PortForwarder = o.PortForwarder ∧
    (∀ pf, Event.newDefaultPortForwarder pf ∉ (Complete env o).events) := by
  have hev := Complete.resolve_events env o
  rw [Complete_bind_fails_pinned env o e hbind hflag]
  refine ⟨rfl, ?_, Complete.resolve_localPort env o, Complete.resolve_PortPair env o,
    Complete.resolve_PortForwarder env o, ?_⟩
  · intro hin
    simp only [List.mem_append, List.mem_cons, List.mem_singleton, List.not_mem_nil,
      or_false] at hin
    rcases hin with hin | hin | hin
    · have := hev _ hin
      simp at this
    · cases hin
    · cases hin
  · intro pf hin
    simp only [List.mem_append, List.mem_cons, List.mem_singleton, List.not_mem_nil,
      or_false] at hin
    rcases hin with hin | hin | hin
    · have := hev _ hin
      simp at this
    · cases hin
    · cases hin

/-- Witness of C1: port 5858 pinned and busy. -/
theorem complete_pinned_port_fidelity_witness :
    (Complete (envOf 5858 true (some ⟨true⟩) (52341, none) none) (optsOf 5858)).err
        = some errInUse ∧
    Event.httpGetFreePort ∉
      (Complete (envOf 5858 true (some ⟨true⟩) (52341, none) none) (optsOf 5858)).events ∧
    (Complete (envOf 5858 true (some ⟨true⟩) (52341, none) none) (optsOf 5858)).o.localPort
        = 5858 :=
  have h := complete_pinned_port_fidelity (envOf 5858 true (some ⟨true⟩) (52341, none) none)
    (optsOf 5858) errInUse rfl (by decide)
  ⟨h.1, h.2.1, h.2.2.1⟩

/-- C2 as stated fails.  With port 5858 busy and not pinned: when the free-port
lookup fails, `Complete` returns the lookup error instead of succeeding; and when
the lookup answers 5858 (the port was released in between), `Complete` succeeds
with the final port equal to the requested one. -/
theorem complete_auto_recovery_counterexample :
    (envOf 5858 true (some ⟨false⟩) (-1, some errNoPort) none).netListen "tcp"
        ("localhost:" ++ Itoa (optsOf 5858).localPort) = Except.error errInUse ∧
    flagSet ((envOf 5858 true (some ⟨false⟩) (-1, some errNoPort) none).flagsLookup
        "local-port") = false ∧
    (Complete (envOf 5858 true (some ⟨false⟩) (-1, some errNoPort) none) (optsOf 5858)).err
        = some errNoPort ∧
    (Complete (envOf 5858 true (some ⟨false⟩) (5858, none) none) (optsOf 5858)).err = none ∧
    (Complete (envOf 5858 true (some ⟨false⟩) (5858, none) none) (optsOf 5858)).o.localPort
        = (optsOf 5858).localPort := by
  refine ⟨rfl, by decide, by decide, by decide, by decide⟩

/-- C2 (auto-recovery, amended).  When the bind on `localhost:p` fails and the
`local-port` flag is absent or unchanged, `Complete` logs the busy port with its
cause and calls the free-port lookup once.  If the lookup fails, `Complete`
returns the lookup error and `PortPair` is not built.  If it answers `p'`,
`Complete` returns nil, the final local port is `p'`, the selected port is
logged, and `PortPair` is rendered from `p'` and the remote debug port. -/
theorem complete_auto_recovery (env : CompleteEnv) (o : PortForwardOptions) (e : GoError)
    (hbind : env.netListen "tcp" ("localhost:" ++ Itoa o.localPort) = Except.error e)
    (hflag : flagSet (env.flagsLookup "local-port") = false) :
    (Complete env o).events.count Event.httpGetFreePort = 1 ∧
    Event.logErrorf o.localPort e ∈ (Complete env o).events ∧
    (∀ e2, env.httpGetFreePort.2 = some e2 →
      (Complete env o).err = some e2 ∧ (Complete env o).o.PortPair = o.PortPair) ∧
    (env.httpGetFreePort.2 = none →
      (Complete env o).err = none ∧
      (Complete env o).o.localPort = env.httpGetFreePort.1 ∧
      Event.logInfof env.httpGetFreePort.1 ∈ (Complete env o).events ∧
      (Complete env o).o.PortPair =
        Sprintf_d_colon_d env.httpGetFreePort.1 (Complete.resolve env o).2.2) := by
  have hev := Complete.resolve_events env o
  have hcount : (Complete.resolve env o).2.1.count Event.httpGetFreePort = 0 := by
    apply List.count_eq_zero_of_not_mem
    intro hin
    have := hev _ hin
    simp at this
  cases hfree : env.httpGetFreePort.2 with
  | some e2 =>
    rw [Complete_bind_fails_lookup_fails env o e e2 hbind hflag hfree]
    refine ⟨?_, by simp, ?_, by simp⟩
    · simp [List.count_append, List.count_cons, hcount]
    · intro e3 h3
      cases h3
      exact ⟨rfl, Complete.resolve_PortPair env o⟩
  | none =>
    rw [Complete_bind_fails_lookup_ok env o e hbind hflag hfree]
    obtain ⟨pf, hpf⟩ := Complete.finish_events
      { (Complete.resolve env o).1 with localPort := env.httpGetFreePort.1 }
      (Complete.resolve env o).2.2
      ((Complete.resolve env o).2.1 ++
        [Event.netListen "tcp" ("localhost:" ++ Itoa o.localPort),
         Event.flagsLookup "local-port", Event.logErrorf o.localPort e,
         Event.httpGetFreePort, Event.logInfof env.httpGetFreePort.1])
    rw [hpf]
    refine ⟨?_, by simp, by simp, ?_⟩
    · simp [List.count_append, List.count_cons, hcount]
    · intro _
      exact ⟨rfl, rfl, by simp, rfl⟩

/-- Witness of C2: port 5858 busy and not pinned, the lookup answers 52341. -/
theorem complete_auto_recovery_witness :
    (Complete (envOf 5858 true (some ⟨false⟩) (52341, none) none) (optsOf 5858)).err = none ∧
    (Complete (envOf 5858 true (some ⟨false⟩) (52341, none) none) (optsOf 5858)).o.localPort
      = 52341 ∧
    (Complete (envOf 5858 true none (-1, some errNoPort) none) (optsOf 5858)).err
      = some errNoPort :=
  have h := complete_auto_recovery (envOf 5858 true (some ⟨false⟩) (52341, none) none)
    (optsOf 5858) errInUse rfl (by decide)
  have h2 := complete_auto_recovery (envOf 5858 true none (-1, some errNoPort) none)
    (optsOf 5858) errInUse rfl (by decide)
  ⟨(h.2.2.2 rfl).1, (h.2.2.2 rfl).2.1, (h2.2.2.1 errNoPort rfl).1⟩

/-- C5 (pair rendering).  Whenever `Complete` returns nil, `PortPair` is the decimal
rendering of the final local port, then ":", then the decimal rendering of the
debug port read from the target's configuration (the devfile environment in
experimental mode with a devfile, the local configuration otherwise), on every
branch of the negotiation.  Local 5858 with remote 5858 renders as "5858:5858",
local 9000 with remote 5858 as "9000:5858". -/
theorem complete_pair_rendering (env : CompleteEnv) (o : PortForwardOptions)
    (h : (Complete env o).err = none) :
    (Complete env o).o.PortPair =
      Itoa (Complete env o).o.localPort ++ ":" ++
        Itoa (if env.isExperimentalModeEnabled && env.checkPathExists o.DevfilePath then
                env.newDevfileContext.EnvSpecificInfo.debugPort
              else env.newContext.LocalConfigInfo.debugPort) ∧
    Sprintf_d_colon_d 5858 5858 = "5858:5858" ∧
    Sprintf_d_colon_d 9000 5858 = "9000:5858" := by
  refine ⟨?_, by decide, by decide⟩
  rw [Complete_ok_PortPair env o h, Complete.resolve_remotePort]
  rfl

/-- Witness of C5: local 5858 free gives "5858:5858"; local 5858 busy, replaced
by 9000, gives "9000:5858". -/
theorem complete_pair_rendering_witness :
    (Complete (envOf 5858 false none (52341, none) none) (optsOf 5858)).o.PortPair
      = "5858:5858" ∧
    (Complete (envOf 5858 true none (9000, none) none) (optsOf 5858)).o.PortPair
      = "9000:5858" :=
  ⟨(complete_pair_rendering (envOf 5858 false none (52341, none) none) (optsOf 5858)
      (by decide)).1.trans (by decide),
   (complete_pair_rendering (envOf 5858 true none (9000, none) none) (optsOf 5858)
      (by decide)).1.trans (by decide)⟩

/-- C6 (validation boundary).  `Validate` returns an error exactly when `PortPair`
is the empty string, the error is "ports cannot be empty", every other `PortPair`
gives nil, and the options are left as they were. -/
theorem validate_boundary (o : PortForwardOptions) :
    (Validate o).1 = o ∧
    ((Validate o).2 ≠ none ↔ o.PortPair = "") ∧
    ((Validate o).2 = some ⟨"ports cannot be empty"⟩ ↔ o.PortPair = "") ∧
    ((Validate o).2 = none ↔ o.PortPair ≠ "") := by
  have hl := len_lt_one_iff o.PortPair
  by_cases h : o.PortPair = ""
  · have h1 : len o.PortPair < 1 := hl.2 h
    unfold Validate
    rw [if_pos h1]
    simp [h]
  · have h1 : ¬ len o.PortPair < 1 := fun hh => h (hl.1 hh)
    unfold Validate
    rw [if_neg h1]
    simp [h]

/-- C7 as stated fails.  With `--local-port 0` and remote debug port 5858, the bind
on `localhost:0` succeeds, `Complete` returns nil, `Validate` returns nil, and the
pair "0:5858" is what `Run` receives. -/
theorem nonpositive_ports_rejected_counterexample :
    (optsOf 0).localPort ≤ 0 ∧
    (CompleteThenValidate (envOf 5858 false (some ⟨true⟩) (52341, none) none)
        (optsOf 0)).2 = none ∧
    (CompleteThenValidate (envOf 5858 false (some ⟨true⟩) (52341, none) none)
        (optsOf 0)).1.PortPair = "0:5858" := by
  refine ⟨by decide, by decide, by decide⟩

/-- C7 (amended).  The sequence `Complete`, `Validate` has no check on the sign of a
port: it ends with an error exactly when `Complete` returns one, with that error;
and whenever `Complete` returns nil, for any local and remote port, `Validate`
returns nil and the options keep the pair rendered from those two ports. -/
theorem complete_then_validate_no_sign_check (env : CompleteEnv) (o : PortForwardOptions) :
    (CompleteThenValidate env o).2 = (Complete env o).err ∧
    (CompleteThenValidate env o).1 = (Complete env o).o ∧
    ((Complete env o).err = none →
      (CompleteThenValidate env o).1.PortPair =
        Sprintf_d_colon_d (Complete env o).o.localPort (Complete.resolve env o).2.2) := by
  have key : (Complete env o).err = none → (Validate (Complete env o).o) =
      ((Complete env o).o, none) := by
    intro h
    have hpp := Complete_ok_PortPair env o h
    have hne : ¬ len (Complete env o).o.PortPair < 1 := by
      rw [len_lt_one_iff, hpp]
      exact Sprintf_ne_empty _ _
    unfold Validate
    rw [if_neg hne]
  cases herr : (Complete env o).err with
  | some e => simp [CompleteThenValidate, herr]
  | none =>
    have hk := key herr
    have hpp := Complete_ok_PortPair env o herr
    simp only [CompleteThenValidate, herr, hk]
    exact ⟨trivial, trivial, fun _ => hpp⟩

/-- Witness of C7: local port 0 and remote port 0 give the pair "0:0". -/
theorem complete_then_validate_no_sign_check_witness :
    (Complete (envOf 0 false none (52341, none) none) (optsOf 0)).err = none ∧
    (CompleteThenValidate (envOf 0 false none (52341, none) none) (optsOf 0)).2 = none ∧
    (CompleteThenValidate (envOf 0 false none (52341, none) none) (optsOf 0)).1.PortPair
      = "0:0" :=
  have h := complete_then_validate_no_sign_check (envOf 0 false none (52341, none) none)
    (optsOf 0)
  ⟨by decide, h.1.trans (by decide), (h.2.2 (by decide)).trans (by decide)⟩

/-- C9 (probe on a free port).  When the bind on `localhost:p` succeeds, `Complete`
closes the probe listener once and never calls the free-port lookup; if the close
fails `Complete` returns the close error; if it succeeds `Complete` returns nil
and the final local port is `p`. -/
theorem complete_probe_free_port (env : CompleteEnv) (o : PortForwardOptions) (l : Listener)
    (hbind : env.netListen "tcp" ("localhost:" ++ Itoa o.localPort) = Except.ok l) :
    (Complete env o).events.count (Event.listenerClose l) = 1 ∧
    Event.httpGetFreePort ∉ (Complete env o).events ∧
    (∀ e, env.listenerClose l = some e → (Complete env o).err = some e) ∧
    (env.listenerClose l = none →
      (Complete env o).err = none ∧ (Complete env o).o.localPort = o.localPort) := by
  have hev := Complete.resolve_events env o
  have hcount : (Complete.resolve env o).2.1.count (Event.listenerClose l) = 0 := by
    apply List.count_eq_zero_of_not_mem
    intro hin
    have := hev _ hin
    simp at this
  have hfree : Event.httpGetFreePort ∉ (Complete.resolve env o).2.1 := by
    intro hin
    have := hev _ hin
    simp at this
  cases hclose : env.listenerClose l with
  | some e =>
    rw [Complete_bind_ok_close_fails env o l e hbind hclose]
    refine ⟨by simp [List.count_append, List.count_cons, hcount], by simp [hfree], ?_,
      by simp⟩
    intro e2 h2
    cases h2
    rfl
  | none =>
    rw [Complete_bind_ok_close_ok env o l hbind hclose]
    obtain ⟨pf, hpf⟩ := Complete.finish_events (Complete.resolve env o).1
      (Complete.resolve env o).2.2
      ((Complete.resolve env o).2.1 ++
        [Event.netListen "tcp" ("localhost:" ++ Itoa o.localPort), Event.listenerClose l])
    rw [hpf]
    refine ⟨by simp [List.count_append, List.count_cons, hcount], by simp [hfree],
      by simp, ?_⟩
    intro _
    exact ⟨rfl, Complete.resolve_localPort env o⟩

/-- Witness of C9: port 5858 free, once with a clean close, once with a failed one. -/
theorem complete_probe_free_port_witness :
    (Complete (envOf 5858 false none (52341, none) none) (optsOf 5858)).err = none ∧
    (Complete (envOf 5858 false none (52341, none) none) (optsOf 5858)).o.localPort
      = 5858 ∧
    (Complete (envOf 5858 false none (52341, none) (some errClose)) (optsOf 5858)).err
      = some errClose :=
  have h := complete_probe_free_port (envOf 5858 false none (52341, none) none)
    (optsOf 5858) ⟨"localhost:5858"⟩ rfl
  have h2 := complete_probe_free_port (envOf 5858 false none (52341, none) (some errClose))
    (optsOf 5858) ⟨"localhost:5858"⟩ rfl
  ⟨(h.2.2.2 rfl).1, (h.2.2.2 rfl).2, h2.2.2.1 errClose rfl⟩

/-- C10 (Validate cannot fail after Complete).  Whenever `Complete` returns nil, the
`PortPair` it leaves has at least three characters and exactly one ":", so it is
not empty and `Validate` on the completed options returns nil; options on which
`Validate` returns an error have an empty `PortPair` and are not the outcome of
that `Complete`. -/
theorem validate_after_complete (env : CompleteEnv) (o : PortForwardOptions)
    (h : (Complete env o).err = none) :
    3 ≤ (Complete env o).o.PortPair.length ∧
    (Complete env o).o.PortPair.data.count ':' = 1 ∧
    (Complete env o).o.PortPair ≠ "" ∧
    (Validate (Complete env o).o).2 = none ∧
    (∀ o2, (Validate o2).2 ≠ none → o2.PortPair = "" ∧ o2 ≠ (Complete env o).o) := by
  have hpp := Complete_ok_PortPair env o h
  have hne : (Complete env o).o.PortPair ≠ "" := by
    rw [hpp]
    exact Sprintf_ne_empty _ _
  have hval : ∀ o2 : PortForwardOptions, (Validate o2).2 ≠ none → o2.PortPair = "" := by
    intro o2 h2
    by_contra hc
    apply h2
    have h1 : ¬ len o2.PortPair < 1 := fun hh => hc ((len_lt_one_iff _).1 hh)
    unfold Validate
    rw [if_neg h1]
  refine ⟨?_, ?_, hne, ?_, ?_⟩
  · rw [hpp]
    exact Sprintf_length _ _
  · rw [hpp]
    exact Sprintf_count_colon _ _
  · by_contra hc
    exact hne (hval _ hc)
  · intro o2 h2
    refine ⟨hval o2 h2, ?_⟩
    intro heq
    apply hne
    rw [← heq]
    exact hval o2 h2

/-- Witness of C10: after a successful `Complete` on a busy default port `Validate`
returns nil, while on options never completed it returns the error. -/
theorem validate_after_complete_witness :
    (Complete (envOf 5858 true none (52341, none) none) (optsOf 5858)).err = none ∧
    (Validate (Complete (envOf 5858 true none (52341, none) none) (optsOf 5858)).o).2
      = none ∧
    (Validate NewPortForwardOptions).2 = some ⟨"ports cannot be empty"⟩ :=
  ⟨by decide,
   (validate_after_complete (envOf 5858 true none (52341, none) none) (optsOf 5858)
     (by decide)).2.2.2.1,
   by decide⟩

/-! ## `Run`, path by path -/

theorem getElem?_append_lt {l₁ l₂ : List Event} {i : Nat} {x : Event}
    (h : (l₁ ++ l₂)[i]? = some x) (hx : x ∉ l₂) : i < l₁.length := by
  by_contra hlt
  rw [List.getElem?_append_right (Nat.le_of_not_lt hlt)] at h
  exact hx (List.getElem?_mem h)

theorem getElem?_append_ge {l₁ l₂ : List Event} {j : Nat} {x : Event}
    (h : (l₁ ++ l₂)[j]? = some x) (hx : x ∉ l₁) : l₁.length ≤ j := by
  by_contra hlt
  rw [List.getElem?_append_left (Nat.lt_of_not_le hlt)] at h
  exact hx (List.getElem?_mem h)

theorem osRemoveAll_ok (env : RunEnv) (path : String) (fs : FS)
    (h : (osRemoveAll env path fs).2 = none) : path ∉ (osRemoveAll env path fs).1 := by
  unfold osRemoveAll at h ⊢
  split at h
  · simp at h
  · rename_i hdot
    rw [if_neg hdot]
    cases hf : (if path = "" then none else env.osRemoveAllFails path fs) with
    | some r => rw [hf] at h; simp at h
    | none => simp [List.mem_filter, atOrBelow]

theorem Run_create_fails (env : RunEnv) (o : PortForwardOptions) (fs fs1 : FS) (e : GoError)
    (h : env.createDebugInfoFile o.PortForwarder o.PortPair fs = (fs1, some e)) :
    Run env o fs =
      { events :=
          [Event.makeChan 1, Event.signalNotify, Event.goBridge o.StopChannel,
           Event.createDebugInfoFile o.PortForwarder o.PortPair] ++
          [Event.osRemoveAll
             (env.getDebugInfoFilePath o.componentName o.applicationName o.Namespace)
             (osRemoveAll env
               (env.getDebugInfoFilePath o.componentName o.applicationName o.Namespace)
               fs1).2,
           Event.signalStop],
        fs := (osRemoveAll env
          (env.getDebugInfoFilePath o.componentName o.applicationName o.Namespace) fs1).1,
        err := some e } := by
  simp [Run, h, runDeferred]

theorem Run_create_ok (env : RunEnv) (o : PortForwardOptions) (fs fs1 : FS)
    (h : env.createDebugInfoFile o.PortForwarder o.PortPair fs = (fs1, none)) :
    Run env o fs =
      { events :=
          [Event.makeChan 1, Event.signalNotify, Event.goBridge o.StopChannel,
           Event.createDebugInfoFile o.PortForwarder o.PortPair,
           Event.forwardPorts o.PortPair o.StopChannel o.ReadyChannel o.isExperimental] ++
          [Event.osRemoveAll
             (env.getDebugInfoFilePath o.componentName o.applicationName o.Namespace)
             (osRemoveAll env
               (env.getDebugInfoFilePath o.componentName o.applicationName o.Namespace)
               (env.forwardPorts o.PortForwarder o.PortPair o.StopChannel o.ReadyChannel
                 o.isExperimental fs1).1).2,
           Event.signalStop],
        fs := (osRemoveAll env
          (env.getDebugInfoFilePath o.componentName o.applicationName o.Namespace)
          (env.forwardPorts o.PortForwarder o.PortPair o.StopChannel o.ReadyChannel
            o.isExperimental fs1).1).1,
        err := (env.forwardPorts o.PortForwarder o.PortPair o.StopChannel o.ReadyChannel
          o.isExperimental fs1).2 } := by
  simp [Run, h, runDeferred]

/-- Every run ends with the removal and then `signal.Stop`, after a prefix that
holds neither, and the files are those the removal leaves. -/
theorem Run_shape (env : RunEnv) (o : PortForwardOptions) (fs : FS) :
    ∃ pre fs1,
      (Run env o fs).events = pre ++
        [Event.osRemoveAll
           (env.getDebugInfoFilePath o.componentName o.applicationName o.Namespace)
           (osRemoveAll env
             (env.getDebugInfoFilePath o.componentName o.applicationName o.Namespace)
             fs1).2,
         Event.signalStop] ∧
      (Run env o fs).fs = (osRemoveAll env
        (env.getDebugInfoFilePath o.componentName o.applicationName o.Namespace) fs1).1 ∧
      (∀ ev ∈ pre, ev.isOsRemoveAll = false) ∧
      (∀ ev ∈ (Run env o fs).events, ev.isForwardPorts = true → ev ∈ pre) := by
  rcases hc : env.createDebugInfoFile o.PortForwarder o.PortPair fs with ⟨fs1, _ | e⟩
  · rw [Run_create_ok env o fs fs1 hc]
    refine ⟨_, _, rfl, rfl, ?_, ?_⟩
    · intro ev hev
      simp only [List.mem_cons, List.mem_singleton, List.not_mem_nil, or_false] at hev
      rcases hev with h | h | h | h | h <;> subst h <;> rfl
    · intro ev hev hfw
      simp only [List.mem_append, List.mem_cons, List.mem_singleton, List.not_mem_nil,
        or_false] at hev
      rcases hev with h | h | h
      · simpa using h
      · subst h; cases hfw
      · subst h; cases hfw
  · rw [Run_create_fails env o fs fs1 e hc]
    refine ⟨_, _, rfl, rfl, ?_, ?_⟩
    · intro ev hev
      simp only [List.mem_cons, List.mem_singleton, List.not_mem_nil, or_false] at hev
      rcases hev with h | h | h | h <;> subst h <;> rfl
    · intro ev hev hfw
      simp only [List.mem_append, List.mem_cons, List.mem_singleton, List.not_mem_nil,
        or_false] at hev
      rcases hev with h | h | h
      · simpa using h
      · subst h; cases hfw
      · subst h; cases hfw

/-! ## Claims about `Run` -/

/-- C3 (guaranteed record deletion).  On every exit path of `Run` (write failed,
tunnel failed, tunnel ended cleanly) `os.RemoveAll` is called exactly once, on the
path of the record keyed by the component, the application and the namespace; any
call of the tunnel stands before it in the order of calls; and when that removal
returns nil, no file exists at the record's path once `Run` has returned. -/
theorem run_record_deletion (env : RunEnv) (o : PortForwardOptions) (fs : FS) :
    (Run env o fs).events.countP Event.isOsRemoveAll = 1 ∧
    (∀ p res, Event.osRemoveAll p res ∈ (Run env o fs).events →
      p = env.getDebugInfoFilePath o.componentName o.applicationName o.Namespace) ∧
    (∀ (i j : Nat) pp s rd x p res,
      (Run env o fs).events[i]? = some (Event.forwardPorts pp s rd x) →
      (Run env o fs).events[j]? = some (Event.osRemoveAll p res) → i < j) ∧
    (Event.osRemoveAll
        (env.getDebugInfoFilePath o.componentName o.applicationName o.Namespace) none
        ∈ (Run env o fs).events →
      env.getDebugInfoFilePath o.componentName o.applicationName o.Namespace
        ∉ (Run env o fs).fs) := by
  obtain ⟨pre, fs1, hev, hfs, hpre, hfw⟩ := Run_shape env o fs
  have hnot : ∀ p res, Event.osRemoveAll p res ∉ pre := by
    intro p res hin
    have := hpre _ hin
    simp [Event.isOsRemoveAll] at this
  refine ⟨?_, ?_, ?_, ?_⟩
  · rw [hev, List.countP_append]
    have h0 : pre.countP Event.isOsRemoveAll = 0 := by
      rw [List.countP_eq_zero]
      intro a ha
      simp [hpre a ha]
    rw [h0]
    rfl
  · intro p res hin
    rw [hev] at hin
    simp only [List.mem_append, List.mem_cons, List.mem_singleton, List.not_mem_nil,
      or_false] at hin
    rcases hin with h | h | h
    · exact absurd h (hnot p res)
    · cases h; rfl
    · cases h
  · intro i j pp s rd x p res hi hj
    have hmem : Event.forwardPorts pp s rd x ∈ pre :=
      hfw _ (List.getElem?_mem hi) rfl
    rw [hev] at hi hj
    have h1 : i < pre.length := by
      apply getElem?_append_lt hi
      simp
    have h2 : pre.length ≤ j := getElem?_append_ge hj (hnot p res)
    omega
  · intro hin
    rw [hev] at hin
    simp only [List.mem_append, List.mem_cons, List.mem_singleton, List.not_mem_nil,
      or_false] at hin
    rw [hfs]
    apply osRemoveAll_ok
    rcases hin with h | h | h
    · exact absurd h (hnot _ _)
    · injection h with _ h2
      exact h2.symm
    · cases h

/-- Witness of C3: after a clean end of the tunnel, after a tunnel failure and after
a failed write, the record of the session is gone. -/
theorem run_record_deletion_witness :
    debugInfoPath "c" "a" "p" ∉ (Run (runEnvOf none none none) completedOpts ["/tmp/x"]).fs ∧
    debugInfoPath "c" "a" "p"
      ∉ (Run (runEnvOf none (some errTunnel) none) completedOpts ["/tmp/x"]).fs ∧
    debugInfoPath "c" "a" "p"
      ∉ (Run (runEnvOf (some errWrite) none none) completedOpts ["/tmp/x"]).fs :=
  ⟨(run_record_deletion (runEnvOf none none none) completedOpts ["/tmp/x"]).2.2.2
      (by decide),
   (run_record_deletion (runEnvOf none (some errTunnel) none) completedOpts
      ["/tmp/x"]).2.2.2 (by decide),
   (run_record_deletion (runEnvOf (some errWrite) none none) completedOpts
      ["/tmp/x"]).2.2.2 (by decide)⟩

/-- C4 (result and ordering of `Run`).  `Run` first writes the metadata record.  If
the write fails, `Run` returns the write error and the tunnel is not among its
calls.  If the write succeeds, `ForwardPorts` is called exactly once, right after
the write, with the stored `PortPair`, `StopChannel` and `ReadyChannel`, and `Run`
returns what `ForwardPorts` returned, an error or nil. -/
theorem run_result_and_order (env : RunEnv) (o : PortForwardOptions) (fs : FS) :
    (∀ fs1 e, env.createDebugInfoFile o.PortForwarder o.PortPair fs = (fs1, some e) →
      (Run env o fs).err = some e ∧
      (Run env o fs).events.countP Event.isForwardPorts = 0 ∧
      (Run env o fs).events.take 4 =
        [Event.makeChan 1, Event.signalNotify, Event.goBridge o.StopChannel,
         Event.createDebugInfoFile o.PortForwarder o.PortPair]) ∧
    (∀ fs1, env.createDebugInfoFile o.PortForwarder o.PortPair fs = (fs1, none) →
      (Run env o fs).err =
        (env.forwardPorts o.PortForwarder o.PortPair o.StopChannel o.ReadyChannel
          o.isExperimental fs1).2 ∧
      (Run env o fs).events.countP Event.isForwardPorts = 1 ∧
      (Run env o fs).events.take 5 =
        [Event.makeChan 1, Event.signalNotify, Event.goBridge o.StopChannel,
         Event.createDebugInfoFile o.PortForwarder o.PortPair,
         Event.forwardPorts o.PortPair o.StopChannel o.ReadyChannel o.isExperimental]) := by
  constructor
  · intro fs1 e h
    rw [Run_create_fails env o fs fs1 e h]
    exact ⟨rfl, rfl, rfl⟩
  · intro fs1 h
    rw [Run_create_ok env o fs fs1 h]
    exact ⟨rfl, rfl, rfl⟩

/-- Witness of C4: a failed write, a failed tunnel, a clean end. -/
theorem run_result_and_order_witness :
    (Run (runEnvOf (some errWrite) none none) completedOpts []).err = some errWrite ∧
    (Run (runEnvOf none (some errTunnel) none) completedOpts []).err = some errTunnel ∧
    (Run (runEnvOf none none none) completedOpts []).err = none :=
  ⟨((run_result_and_order (runEnvOf (some errWrite) none none) completedOpts []).1
      [] errWrite rfl).1,
   ((run_result_and_order (runEnvOf none (some errTunnel) none) completedOpts []).2
      [debugInfoPath "c" "a" "p"] (by decide)).1,
   ((run_result_and_order (runEnvOf none none none) completedOpts []).2
      [debugInfoPath "c" "a" "p"] (by decide)).1⟩

/-! ## The signal bridge -/

theorem Bridge.exec_cons (s : BridgeState) (a : Action) (as : List Action) :
    Bridge.exec s (a :: as) = Bridge.exec (Bridge.step s a) as := rfl

theorem Bridge.exec_append (s : BridgeState) (as bs : List Action) :
    Bridge.exec s (as ++ bs) = Bridge.exec (Bridge.exec s as) bs := by
  simp [Bridge.exec, List.foldl_append]

theorem Bridge.step_deliver (s : BridgeState) (sig : Signal) :
    Bridge.step s (Action.deliver sig) =
      if s.registered && decide (sig ∈ notifySet) && decide (s.signals.length < 1) then
        { s with signals := s.signals ++ [sig] }
      else s := rfl

/-- The list passed to `signal.Notify` holds the four termination signals and
nothing else. -/
theorem mem_notifySet_iff (sig : Signal) : sig ∈ notifySet ↔ sig.isTermination = true := by
  cases sig <;> decide

/-- The invariant: nothing has panicked, and `close` has run only if the goroutine
has passed its receive, and then at most once. -/
theorem Bridge.step_inv (s : BridgeState) (a : Action)
    (h : s.panicked = false ∧
      ((s.pc = BridgePc.atReceive ∧ s.closes = 0 ∧ s.stopClosed ≠ some true) ∨
       (s.pc = BridgePc.returned ∧ s.closes ≤ 1))) :
    (Bridge.step s a).panicked = false ∧
      (((Bridge.step s a).pc = BridgePc.atReceive ∧ (Bridge.step s a).closes = 0 ∧
          (Bridge.step s a).stopClosed ≠ some true) ∨
       ((Bridge.step s a).pc = BridgePc.returned ∧ (Bridge.step s a).closes ≤ 1)) := by
  obtain ⟨hp, hq⟩ := h
  cases a with
  | deliver sig =>
    rw [Bridge.step_deliver]
    split
    · exact ⟨hp, hq⟩
    · exact ⟨hp, hq⟩
  | runReturns => exact ⟨hp, hq⟩
  | bridge =>
    obtain ⟨sigs, reg, pc, sc, rcv, cl, pn⟩ := s
    simp only at hp hq
    subst hp
    cases pc with
    | returned => simpa [Bridge.step] using hq
    | atReceive =>
      cases sigs with
      | nil => simpa [Bridge.step] using hq
      | cons sig rest =>
        rcases hq with ⟨_, hc, hs⟩ | ⟨h, _⟩
        · subst hc
          cases sc with
          | none => simp [Bridge.step]
          | some b =>
            cases b with
            | false => simp [Bridge.step]
            | true => exact absurd rfl hs
        · cases h

theorem Bridge.exec_inv (as : List Action) : ∀ (s : BridgeState),
    (s.panicked = false ∧
      ((s.pc = BridgePc.atReceive ∧ s.closes = 0 ∧ s.stopClosed ≠ some true) ∨
       (s.pc = BridgePc.returned ∧ s.closes ≤ 1))) →
    (Bridge.exec s as).panicked = false ∧ (Bridge.exec s as).closes ≤ 1 := by
  induction as with
  | nil =>
    intro s h
    refine ⟨h.1, ?_⟩
    rcases h.2 with ⟨_, hc, _⟩ | ⟨_, hc⟩
    · simp [Bridge.exec, hc]
    · exact hc
  | cons a as ih =>
    intro s h
    rw [Bridge.exec_cons]
    exact ih _ (Bridge.step_inv s a h)

theorem Bridge.init_inv (stop : Option Chan) :
    (Bridge.init stop).panicked = false ∧
      (((Bridge.init stop).pc = BridgePc.atReceive ∧ (Bridge.init stop).closes = 0 ∧
          (Bridge.init stop).stopClosed ≠ some true) ∨
       ((Bridge.init stop).pc = BridgePc.returned ∧ (Bridge.init stop).closes ≤ 1)) := by
  refine ⟨rfl, Or.inl ⟨rfl, rfl, ?_⟩⟩
  cases stop <;> simp [Bridge.init]

/-- A nil `StopChannel` is never closed. -/
theorem Bridge.step_nil (s : BridgeState) (a : Action) (h : s.stopClosed = none) :
    (Bridge.step s a).stopClosed = none ∧ (Bridge.step s a).closes = s.closes := by
  cases a with
  | deliver sig =>
    rw [Bridge.step_deliver]
    split
    · exact ⟨h, rfl⟩
    · exact ⟨h, rfl⟩
  | runReturns => exact ⟨h, rfl⟩
  | bridge =>
    obtain ⟨sigs, reg, pc, sc, rcv, cl, pn⟩ := s
    simp only at h
    subst h
    cases pc with
    | returned => simp [Bridge.step]
    | atReceive =>
      cases sigs with
      | nil => simp [Bridge.step]
      | cons sig rest => simp [Bridge.step]

theorem Bridge.exec_nil (as : List Action) : ∀ (s : BridgeState),
    s.stopClosed = none → (Bridge.exec s as).closes = s.closes := by
  induction as with
  | nil => intro s _; rfl
  | cons a as ih =>
    intro s h
    rw [Bridge.exec_cons, ih _ (Bridge.step_nil s a h).1, (Bridge.step_nil s a h).2]

/-- Once the goroutine has returned, no action touches `StopChannel`. -/
theorem Bridge.step_returned (s : BridgeState) (a : Action) (h : s.pc = BridgePc.returned) :
    (Bridge.step s a).pc = BridgePc.returned ∧
    (Bridge.step s a).closes = s.closes ∧
    (Bridge.step s a).stopClosed = s.stopClosed ∧
    (Bridge.step s a).panicked = s.panicked ∧
    (Bridge.step s a).received = s.received := by
  cases a with
  | deliver sig =>
    rw [Bridge.step_deliver]
    split
    · exact ⟨h, rfl, rfl, rfl, rfl⟩
    · exact ⟨h, rfl, rfl, rfl, rfl⟩
  | runReturns => exact ⟨h, rfl, rfl, rfl, rfl⟩
  | bridge =>
    unfold Bridge.step
    simp only [h]
    exact ⟨trivial, trivial, trivial, trivial, trivial⟩

theorem Bridge.exec_returned (as : List Action) : ∀ (s : BridgeState),
    s.pc = BridgePc.returned →
    (Bridge.exec s as).closes = s.closes ∧
    (Bridge.exec s as).stopClosed = s.stopClosed ∧
    (Bridge.exec s as).panicked = s.panicked ∧
    (Bridge.exec s as).received = s.received := by
  induction as with
  | nil => intro s _; exact ⟨rfl, rfl, rfl, rfl⟩
  | cons a as ih =>
    intro s h
    obtain ⟨h1, h2, h3, h4, h5⟩ := Bridge.step_returned s a h
    rw [Bridge.exec_cons]
    obtain ⟨k2, k3, k4, k5⟩ := ih _ h1
    exact ⟨k2.trans h2, k3.trans h3, k4.trans h4, k5.trans h5⟩

/-- While no registered signal has arrived the goroutine stays blocked. -/
theorem Bridge.step_quiet (s : BridgeState) (a : Action) (ha : a.quiet = true)
    (hs : s.signals = []) : Bridge.step s a = s := by
  cases a with
  | deliver sig =>
    have hterm : sig.isTermination = false := by simpa [Action.quiet] using ha
    have : decide (sig ∈ notifySet) = false := by
      rw [decide_eq_false_iff_not, mem_notifySet_iff, hterm]
      simp
    simp [Bridge.step, this]
  | runReturns => simp [Action.quiet] at ha
  | bridge =>
    unfold Bridge.step
    cases s.pc with
    | returned => rfl
    | atReceive => simp [hs]

theorem Bridge.exec_quiet (pre : List Action) : ∀ (s : BridgeState),
    (∀ a ∈ pre, a.quiet = true) → s.signals = [] → Bridge.exec s pre = s := by
  induction pre with
  | nil => intro s _ _; rfl
  | cons a as ih =>
    intro s h hs
    rw [Bridge.exec_cons, Bridge.step_quiet s a (h a (List.mem_cons_self _ _)) hs]
    exact ih s (fun b hb => h b (List.mem_cons_of_mem _ hb)) hs

/-- With a signal waiting in `signals`, the next turn of the goroutine takes it and
closes `StopChannel` if it is not nil; whatever comes before or after changes
nothing of that. -/
theorem Bridge.exec_pending (sig : Signal) (rest : List Action) : ∀ (s : BridgeState),
    s.pc = BridgePc.atReceive → s.signals = [sig] → s.panicked = false → s.closes = 0 →
    s.stopClosed ≠ some true → Action.bridge ∈ rest →
    (Bridge.exec s rest).received = some sig ∧
    (Bridge.exec s rest).panicked = false ∧
    (Bridge.exec s rest).closes = (if s.stopClosed.isSome then 1 else 0) ∧
    (Bridge.exec s rest).stopClosed = s.stopClosed.map (fun _ => true) := by
  induction rest with
  | nil => intro s _ _ _ _ _ h; cases h
  | cons a as ih =>
    intro s hpc hsig hpn hcl hst hmem
    rw [Bridge.exec_cons]
    cases a with
    | deliver sig2 =>
      have hstep : Bridge.step s (Action.deliver sig2) = s := by
        rw [Bridge.step_deliver]
        simp [hsig]
      rw [hstep]
      apply ih s hpc hsig hpn hcl hst
      rcases List.mem_cons.1 hmem with h | h
      · cases h
      · exact h
    | runReturns =>
      have hb : Action.bridge ∈ as := by
        rcases List.mem_cons.1 hmem with h | h
        · cases h
        · exact h
      exact ih (Bridge.step s Action.runReturns) hpc hsig hpn hcl hst hb
    | bridge =>
      obtain ⟨sigs, reg, pc, sc, rcv, cl, pn⟩ := s
      simp only at hpc hsig hpn hcl hst
      subst hpc hsig hpn hcl
      cases sc with
      | none =>
        obtain ⟨k2, k3, k4, k5⟩ := Bridge.exec_returned as
          (Bridge.step ⟨[sig], reg, BridgePc.atReceive, none, rcv, 0, false⟩ Action.bridge)
          rfl
        exact ⟨k5, k4, k2, k3⟩
      | some b =>
        cases b with
        | true => exact absurd rfl hst
        | false =>
          obtain ⟨k2, k3, k4, k5⟩ := Bridge.exec_returned as
            (Bridge.step ⟨[sig], reg, BridgePc.atReceive, some false, rcv, 0, false⟩
              Action.bridge) rfl
          exact ⟨k5, k4, k2, k3⟩

/-- What is known of every reachable state: only termination signals wait in
`signals`; before the receive nothing has been taken or closed; after it a
termination signal has been taken and `close` has run once, unless the channel
is nil. -/
theorem Bridge.step_reach (stop : Option Chan) (s : BridgeState) (a : Action)
    (h : (∀ x ∈ s.signals, x.isTermination = true) ∧
      ((s.pc = BridgePc.atReceive ∧ s.received = none ∧ s.closes = 0 ∧
          s.stopClosed = stop.map (fun _ => false)) ∨
       (s.pc = BridgePc.returned ∧ (∃ x, s.received = some x ∧ x.isTermination = true) ∧
          s.closes = (if stop.isSome then 1 else 0)))) :
    (∀ x ∈ (Bridge.step s a).signals, x.isTermination = true) ∧
      (((Bridge.step s a).pc = BridgePc.atReceive ∧ (Bridge.step s a).received = none ∧
          (Bridge.step s a).closes = 0 ∧
          (Bridge.step s a).stopClosed = stop.map (fun _ => false)) ∨
       ((Bridge.step s a).pc = BridgePc.returned ∧
          (∃ x, (Bridge.step s a).received = some x ∧ x.isTermination = true) ∧
          (Bridge.step s a).closes = (if stop.isSome then 1 else 0))) := by
  obtain ⟨hsig, hq⟩ := h
  cases a with
  | deliver sig =>
    rw [Bridge.step_deliver]
    split
    · rename_i hc
      have hmem : sig ∈ notifySet := by
        simp only [Bool.and_eq_true, decide_eq_true_eq] at hc
        exact hc.1.2
      refine ⟨?_, hq⟩
      intro x hx
      rcases List.mem_append.1 hx with hx | hx
      · exact hsig x hx
      · rw [List.mem_singleton] at hx
        subst hx
        exact (mem_notifySet_iff x).1 hmem
    · exact ⟨hsig, hq⟩
  | runReturns => exact ⟨hsig, hq⟩
  | bridge =>
    obtain ⟨sigs, reg, pc, sc, rcv, cl, pn⟩ := s
    cases pc with
    | returned => exact ⟨hsig, hq⟩
    | atReceive =>
      cases sigs with
      | nil => exact ⟨hsig, hq⟩
      | cons sig rest =>
        have hterm : sig.isTermination = true := hsig sig (List.mem_cons_self _ _)
        have hrest : ∀ x ∈ rest, x.isTermination = true :=
          fun x hx => hsig x (List.mem_cons_of_mem _ hx)
        rcases hq with ⟨_, hr, hc, hs⟩ | ⟨h, _⟩
        · simp only at hr hc hs
          subst hc hs
          cases stop with
          | none => exact ⟨hrest, Or.inr ⟨rfl, ⟨sig, rfl, hterm⟩, rfl⟩⟩
          | some c => exact ⟨hrest, Or.inr ⟨rfl, ⟨sig, rfl, hterm⟩, rfl⟩⟩
        · cases h

theorem Bridge.exec_reach (stop : Option Chan) (as : List Action) : ∀ (s : BridgeState),
    ((∀ x ∈ s.signals, x.isTermination = true) ∧
      ((s.pc = BridgePc.atReceive ∧ s.received = none ∧ s.closes = 0 ∧
          s.stopClosed = stop.map (fun _ => false)) ∨
       (s.pc = BridgePc.returned ∧ (∃ x, s.received = some x ∧ x.isTermination = true) ∧
          s.closes = (if stop.isSome then 1 else 0)))) →
    ((Bridge.exec s as).closes = 1 ↔
      stop.isSome = true ∧ (Bridge.exec s as).received.isSome = true) ∧
    (∀ x, (Bridge.exec s as).received = some x → x.isTermination = true) := by
  induction as with
  | nil =>
    intro s h
    rcases h.2 with ⟨_, hr, hc, _⟩ | ⟨_, ⟨x, hx, hterm⟩, hc⟩
    · simp [Bridge.exec, hr, hc]
    · refine ⟨?_, ?_⟩
      · simp only [Bridge.exec, List.foldl_nil, hc, hx, Option.isSome_some, and_true]
        cases stop <;> simp
      · intro y hy
        simp only [Bridge.exec, List.foldl_nil, hx] at hy
        cases hy
        exact hterm
  | cons a as ih =>
    intro s h
    rw [Bridge.exec_cons]
    exact ih _ (Bridge.step_reach stop s a h)

/-- C8 as stated fails.  With an open `StopChannel`, SIGINT is delivered and waits
in `signals`; `Run` then returns (its tunnel has ended) before the goroutine has
had a turn.  A termination signal has been delivered, and `close` has not run:
the channel is still open. -/
theorem bridge_fires_once_counterexample :
    Signal.SIGINT.isTermination = true ∧
    (Bridge.exec (Bridge.init (some ⟨1⟩))
      [Action.deliver Signal.SIGINT, Action.runReturns]).signals = [Signal.SIGINT] ∧
    (Bridge.exec (Bridge.init (some ⟨1⟩))
      [Action.deliver Signal.SIGINT, Action.runReturns]).closes = 0 ∧
    (Bridge.exec (Bridge.init (some ⟨1⟩))
      [Action.deliver Signal.SIGINT, Action.runReturns]).stopClosed = some false := by
  refine ⟨by decide, by decide, by decide, by decide⟩

/-- C8 (the signal bridge fires once, amended).  From the state `Run` sets up (a nil
or open `StopChannel`), along every schedule `bs` of signals, turns of the
goroutine and the return of `Run`: `close(StopChannel)` runs at most once and never
panics, never on a nil channel; it has run exactly once precisely when the channel
is not nil and the goroutine has taken a signal; and a signal it has taken is one
of SIGHUP, SIGINT, SIGTERM, SIGQUIT.  Along a schedule in which `sig`, one of these
four, is the first of them delivered and the goroutine has a turn afterwards, the
goroutine takes `sig`, `close` runs exactly once if `StopChannel` is not nil, the
channel ends closed, and every later signal leaves it so, without a panic. -/
theorem bridge_fires_once (stop : Option Chan) (bs pre rest : List Action) (sig : Signal)
    (hpre : ∀ a ∈ pre, a.quiet = true) (hsig : sig.isTermination = true)
    (hrest : Action.bridge ∈ rest) :
    (Bridge.exec (Bridge.init stop) bs).closes ≤ 1 ∧
    (Bridge.exec (Bridge.init stop) bs).panicked = false ∧
    (stop = none → (Bridge.exec (Bridge.init stop) bs).closes = 0) ∧
    ((Bridge.exec (Bridge.init stop) bs).closes = 1 ↔
      stop.isSome = true ∧ (Bridge.exec (Bridge.init stop) bs).received.isSome = true) ∧
    (∀ x, (Bridge.exec (Bridge.init stop) bs).received = some x →
      x = Signal.SIGHUP ∨ x = Signal.SIGINT ∨ x = Signal.SIGTERM ∨ x = Signal.SIGQUIT) ∧
    (Bridge.exec (Bridge.init stop) (pre ++ Action.deliver sig :: rest)).received
      = some sig ∧
    (Bridge.exec (Bridge.init stop) (pre ++ Action.deliver sig :: rest)).panicked
      = false ∧
    (Bridge.exec (Bridge.init stop) (pre ++ Action.deliver sig :: rest)).closes
      = (if stop.isSome then 1 else 0) ∧
    (Bridge.exec (Bridge.init stop) (pre ++ Action.deliver sig :: rest)).stopClosed
      = stop.map (fun _ => true) := by
  have hinv := Bridge.exec_inv bs (Bridge.init stop) (Bridge.init_inv stop)
  have hreach := Bridge.exec_reach stop bs (Bridge.init stop)
    ⟨fun x hx => absurd hx (List.not_mem_nil x), Or.inl ⟨rfl, rfl, rfl, rfl⟩⟩
  refine ⟨hinv.2, hinv.1, ?_, hreach.1, ?_, ?_⟩
  · intro hs
    subst hs
    exact Bridge.exec_nil bs (Bridge.init none) rfl
  · intro x hx
    have hterm := hreach.2 x hx
    cases x <;> simp [Signal.isTermination] at hterm ⊢
  · rw [Bridge.exec_append, Bridge.exec_quiet pre (Bridge.init stop) hpre rfl,
      Bridge.exec_cons]
    have hstep : Bridge.step (Bridge.init stop) (Action.deliver sig) =
        { Bridge.init stop with signals := [sig] } := by
      rw [Bridge.step_deliver]
      simp [Bridge.init, (mem_notifySet_iff sig).2 hsig]
    rw [hstep]
    have hne : (Bridge.init stop).stopClosed ≠ some true := by
      cases stop <;> simp [Bridge.init]
    have h := Bridge.exec_pending sig rest { Bridge.init stop with signals := [sig] }
      rfl rfl rfl rfl hne hrest
    obtain ⟨h1, h2, h3, h4⟩ := h
    refine ⟨h1, h2, ?_, ?_⟩
    · rw [h3]
      cases stop <;> rfl
    · rw [h4]
      cases stop <;> rfl

/-- Witness of C8: SIGUSR1 is not relayed and SIGINT is the first termination
signal, with SIGTERM and SIGHUP after it, the second once the channel is closed;
and each of SIGHUP, SIGTERM and SIGQUIT, delivered first, closes the channel. -/
theorem bridge_fires_once_witness :
    (Bridge.exec (Bridge.init (some ⟨1⟩))
      ([Action.bridge, Action.deliver Signal.SIGUSR1] ++ Action.deliver Signal.SIGINT ::
        [Action.deliver Signal.SIGTERM, Action.bridge, Action.deliver Signal.SIGHUP,
         Action.bridge, Action.runReturns])).closes = 1 ∧
    (Bridge.exec (Bridge.init (some ⟨1⟩))
      ([Action.bridge, Action.deliver Signal.SIGUSR1] ++ Action.deliver Signal.SIGINT ::
        [Action.deliver Signal.SIGTERM, Action.bridge, Action.deliver Signal.SIGHUP,
         Action.bridge, Action.runReturns])).received = some Signal.SIGINT ∧
    (Bridge.exec (Bridge.init (some ⟨1⟩))
      ([Action.bridge, Action.deliver Signal.SIGUSR1] ++ Action.deliver Signal.SIGINT ::
        [Action.deliver Signal.SIGTERM, Action.bridge, Action.deliver Signal.SIGHUP,
         Action.bridge, Action.runReturns])).panicked = false ∧
    (Bridge.exec (Bridge.init (some ⟨1⟩))
      ([] ++ Action.deliver Signal.SIGHUP :: [Action.bridge])).closes = 1 ∧
    (Bridge.exec (Bridge.init (some ⟨1⟩))
      ([] ++ Action.deliver Signal.SIGTERM :: [Action.bridge])).closes = 1 ∧
    (Bridge.exec (Bridge.init (some ⟨1⟩))
      ([] ++ Action.deliver Signal.SIGQUIT :: [Action.bridge])).closes = 1 :=
  have h := bridge_fires_once (some ⟨1⟩) [] [Action.bridge, Action.deliver Signal.SIGUSR1]
    [Action.deliver Signal.SIGTERM, Action.bridge, Action.deliver Signal.SIGHUP,
     Action.bridge, Action.runReturns] Signal.SIGINT (by decide) (by decide) (by decide)
  have hhup := bridge_fires_once (some ⟨1⟩) [] [] [Action.bridge] Signal.SIGHUP
    (by decide) (by decide) (by decide)
  have hterm := bridge_fires_once (some ⟨1⟩) [] [] [Action.bridge] Signal.SIGTERM
    (by decide) (by decide) (by decide)
  have hquit := bridge_fires_once (some ⟨1⟩) [] [] [Action.bridge] Signal.SIGQUIT
    (by decide) (by decide) (by decide)
  ⟨h.2.2.2.2.2.2.2.1, h.2.2.2.2.2.1, h.2.2.2.2.2.2.1, hhup.2.2.2.2.2.2.2.1,
   hterm.2.2.2.2.2.2.2.1, hquit.2.2.2.2.2.2.2.1⟩

end Odo
